import Mathlib

/-!
Verification of the per-stream UDP video pipeline in src/debug/debug.py.

The embedding models, per stream, the listener loop (udp_listener, lines
50-75), the capacity-1 latest-wins queue hand-off (lines 66-69 and 91-94),
the decode worker loop (decode_worker, lines 84-101) and the shutdown
sequence of main (lines 160-162).  Bytes are Nat, datagrams are List Nat,
the external decode capability (cv2.imdecode) is an abstract function
returning Option of an image type.
-/

/-- One result of the blocking receive in the listener loop: a datagram,
a socket timeout (socket.timeout, line 71), or any other socket-level
exception (line 73). -/
inductive RecvResult : Type
  | datagram (data : List Nat)
  | timeout
  | error
deriving DecidableEq

/-- Per-stream pipeline state: the reassembly byte buffer
(frame_buffers[port]), the raw-frame capacity-1 queue (raw_queues[port])
and the decoded-frame capacity-1 queue (frame_queues[port]).  A
Queue(maxsize=1) is modelled sequentially as an Option. -/
structure StreamState (α : Type) : Type where
  buffer : List Nat
  rawSlot : Option (List Nat)
  decodedSlot : Option α
deriving DecidableEq

/-- Queue.full() on a capacity-1 queue. -/
def qFull {α : Type} (s : Option α) : Bool := s.isSome

/-- Queue.get / Queue.get_nowait on a capacity-1 queue: returns the stored
value if any (none models the Empty outcome) and the emptied queue. -/
def qGet {α : Type} (s : Option α) : Option α × Option α := (s, none)

/-- Queue.put_nowait on a capacity-1 queue: stores the value if the queue
is empty and reports success; on a full queue it raises Full, modelled by
returning the unchanged queue and false. -/
def qPutNowait {α : Type} (s : Option α) (a : α) : Option α × Bool :=
  match s with
  | some _ => (s, false)
  | none => (some a, true)

/-- The latest-wins publish idiom used at lines 66-69 and 91-94:
if q.full(): q.get_nowait(); then q.put_nowait(item).  Returns the new
queue contents and whether the put succeeded. -/
def putLatest {α : Type} (s : Option α) (a : α) : Option α × Bool :=
  let s1 := if qFull s then (qGet s).2 else s
  qPutNowait s1 a

/-- One iteration of the body of the udp_listener receive loop
(lines 51-75) on a given receive result. -/
def listenerStep {α : Type} (st : StreamState α) : RecvResult → StreamState α
  | RecvResult.timeout => st
  | RecvResult.error => { st with buffer := [] }
  | RecvResult.datagram data =>
      if data.length < 2 then st
      else
        let flag := data.headD 0
        let payload := data.drop 1
        let buffer := st.buffer ++ payload
        if flag = 1 then
          { st with buffer := [], rawSlot := (putLatest st.rawSlot buffer).1 }
        else
          { st with buffer := buffer }

/-- The listener loop body iterated over a sequence of receive results. -/
def listenerRun {α : Type} (st : StreamState α) (events : List RecvResult) :
    StreamState α :=
  events.foldl listenerStep st

/-- One iteration of the body of the decode_worker loop (lines 85-101):
a blocking get on the raw queue (Empty means continue unchanged), then the
external decode capability; a successful decode is published latest-wins
to the decoded queue, a failed decode (imdecode returning None) is logged
and discarded. -/
def decodeStep {α : Type} (decode : List Nat → Option α) (st : StreamState α) :
    StreamState α :=
  match (qGet st.rawSlot).1 with
  | none => st
  | some jpeg =>
      match decode jpeg with
      | some frame =>
          { st with rawSlot := (qGet st.rawSlot).2
                    decodedSlot := (putLatest st.decodedSlot frame).1 }
      | none => { st with rawSlot := (qGet st.rawSlot).2 }

/-- putLatest always stores the new value. -/
theorem putLatest_fst {α : Type} (s : Option α) (a : α) :
    (putLatest s a).1 = some a := by
  cases s <;> rfl

/-- putLatest always succeeds. -/
theorem putLatest_snd {α : Type} (s : Option α) (a : α) :
    (putLatest s a).2 = true := by
  cases s <;> rfl

/-- C5: a datagram of fewer than 2 bytes is discarded silently by the
len(data) < 2 check at line 53: the reassembly buffer, the raw-frame slot
and the decoded-frame slot are exactly as before. -/
theorem short_datagram_no_state_change {α : Type} (st : StreamState α)
    (data : List Nat) (h : data.length < 2) :
    listenerStep st (RecvResult.datagram data) = st := by
  simp [listenerStep, h]

/-- Witness for short_datagram_no_state_change at the 1-byte datagram [9]. -/
theorem short_datagram_no_state_change_witness :
    listenerStep (⟨[1, 2], some [3], some 4⟩ : StreamState Nat)
      (RecvResult.datagram [9]) = ⟨[1, 2], some [3], some 4⟩ :=
  short_datagram_no_state_change ⟨[1, 2], some [3], some 4⟩ [9] (by decide)

/-- C6: a datagram of at least 2 bytes whose flag byte is neither 0 nor 1
is treated like flag 0: its payload is appended to the reassembly buffer
and nothing is completed or published (line 61 only tests flag == 1). -/
theorem unknown_flag_treated_as_more {α : Type} (st : StreamState α)
    (data : List Nat) (hlen : 2 ≤ data.length)
    (h0 : data.headD 0 ≠ 0) (h1 : data.headD 0 ≠ 1) :
    listenerStep st (RecvResult.datagram data) =
      { st with buffer := st.buffer ++ data.drop 1 } := by
  cases data with
  | nil => simp at hlen
  | cons b rest =>
      simp only [List.headD_cons] at h1
      simp [listenerStep, h1]
      intro h
      exfalso
      simp at hlen
      omega

/-- Witness for unknown_flag_treated_as_more at the datagram [7, 3, 4]. -/
theorem unknown_flag_treated_as_more_witness :
    listenerStep (⟨[9], some [1], some 5⟩ : StreamState Nat)
      (RecvResult.datagram [7, 3, 4]) = ⟨[9, 3, 4], some [1], some 5⟩ :=
  unknown_flag_treated_as_more ⟨[9], some [1], some 5⟩ [7, 3, 4]
    (by decide) (by decide) (by decide)

/-- C7: a socket timeout merely re-polls (state unchanged); any other
socket-level error resets the reassembly buffer to empty (line 75), so the
buffer is empty immediately after an error, and the listener keeps
running: the remaining events are processed from the reset state. -/
theorem socket_error_resets_buffer {α : Type} (st : StreamState α)
    (rest : List RecvResult) :
    listenerStep st RecvResult.timeout = st ∧
    listenerStep st RecvResult.error = { st with buffer := [] } ∧
    (listenerStep st RecvResult.error).buffer = [] ∧
    listenerRun st (RecvResult.error :: rest) =
      listenerRun { st with buffer := [] } rest :=
  ⟨rfl, rfl, rfl, rfl⟩

/-- C3: the latest-wins queue idiom: put(a) then put(b) with no take in
between leaves exactly b, which the next take returns (never a), and put
never blocks or fails: it discards the unread previous value and stores
the new one. -/
theorem slot_latest_wins {α : Type} (s : Option α) (a b : α) (hab : a ≠ b) :
    (qGet ((putLatest ((putLatest s a).1) b).1)).1 = some b ∧
    (qGet ((putLatest ((putLatest s a).1) b).1)).1 ≠ some a ∧
    (putLatest s a).1 = some a ∧ (putLatest s a).2 = true := by
  refine ⟨?_, ?_, putLatest_fst s a, putLatest_snd s a⟩
  · rw [putLatest_fst]; rfl
  · rw [putLatest_fst]
    simp [qGet]
    exact fun h => hab h.symm

/-- Witness for slot_latest_wins with values 1 then 2 into an empty slot. -/
theorem slot_latest_wins_witness :
    (qGet ((putLatest ((putLatest (none : Option Nat) 1).1) 2).1)).1 = some 2 ∧
    (qGet ((putLatest ((putLatest (none : Option Nat) 1).1) 2).1)).1 ≠ some 1 ∧
    (putLatest (none : Option Nat) 1).1 = some 1 ∧
    (putLatest (none : Option Nat) 1).2 = true :=
  slot_latest_wins none 1 2 (by decide)

/-- A flag-0 datagram 0 :: p (any other non-1 flag behaves the same, see
unknown_flag_treated_as_more) only extends the buffer; when p is empty the
whole datagram is 1 byte and is dropped, which extends the buffer by
nothing, so the same equation holds. -/
theorem listenerStep_flag0 {α : Type} (st : StreamState α) (p : List Nat) :
    listenerStep st (RecvResult.datagram (0 :: p)) =
      { st with buffer := st.buffer ++ p } := by
  cases p with
  | nil => simp [listenerStep]
  | cons x xs => simp [listenerStep]

/-- A flag-1 datagram 1 :: p with non-empty payload p completes the frame:
the buffer extended by p is published latest-wins to the raw slot and the
buffer is cleared. -/
theorem listenerStep_flag1 {α : Type} (st : StreamState α) (p : List Nat)
    (hp : p ≠ []) :
    listenerStep st (RecvResult.datagram (1 :: p)) =
      { st with buffer := [], rawSlot := some (st.buffer ++ p) } := by
  cases p with
  | nil => exact absurd rfl hp
  | cons x xs => simp [listenerStep, putLatest_fst]

/-- Running the listener over any sequence of flag-0 datagrams appends the
concatenation of their payloads to the buffer and publishes nothing. -/
theorem listenerRun_flag0 {α : Type} (init : List (List Nat)) :
    ∀ st : StreamState α,
      listenerRun st (init.map (fun p => RecvResult.datagram (0 :: p))) =
        { st with buffer := st.buffer ++ init.flatten } := by
  induction init with
  | nil => intro st; simp [listenerRun]
  | cons p ps ih =>
      intro st
      simp only [List.map_cons, listenerRun, List.foldl_cons, List.flatten]
      rw [listenerStep_flag0]
      have h := ih { st with buffer := st.buffer ++ p }
      simp only [listenerRun] at h
      rw [h]
      simp

/-- C1: reassembly correctness: starting from an empty reassembly buffer,
a sequence of datagrams with flags [0, ..., 0, 1] (each datagram at least
2 bytes, i.e. every payload non-empty) leaves the concatenation of all
payloads in arrival order published in the raw-frame slot and an empty
buffer; with init = [] this is the single-fragment case: one flag-1
datagram yields a frame equal to its own payload. -/
theorem reassembly_correct {α : Type} (init : List (List Nat))
    (lastFrag : List Nat) (_hinit : ∀ p ∈ init, p ≠ []) (hlast : lastFrag ≠ [])
    (st : StreamState α) (hbuf : st.buffer = []) :
    listenerRun st
      (init.map (fun p => RecvResult.datagram (0 :: p)) ++
        [RecvResult.datagram (1 :: lastFrag)]) =
      { st with buffer := [], rawSlot := some (init.flatten ++ lastFrag) } := by
  unfold listenerRun
  rw [List.foldl_append]
  have h0 := listenerRun_flag0 init st
  simp only [listenerRun] at h0
  rw [h0, List.foldl_cons, List.foldl_nil, listenerStep_flag1 _ _ hlast, hbuf]
  simp

/-- Witness for reassembly_correct: payload fragments [10, 20] then final
fragment [30] reassemble to the frame [10, 20, 30]. -/
theorem reassembly_correct_witness :
    listenerRun (⟨[], none, none⟩ : StreamState Nat)
      ([[10, 20]].map (fun p => RecvResult.datagram (0 :: p)) ++
        [RecvResult.datagram (1 :: [30])]) =
      ⟨[], some [10, 20, 30], none⟩ := by
  have h := reassembly_correct (α := Nat) [[10, 20]] [30]
    (by decide) (by decide) ⟨[], none, none⟩ rfl
  simpa using h

/-- C2 counterexample: a datagram holding only the flag byte 1, arriving
on an empty reassembly buffer, is dropped by the len(data) < 2 check at
line 53: no zero-length frame appears in the raw-frame slot, contrary to
the claim that a zero-length frame is published. -/
theorem flag_only_datagram_counterexample :
    (listenerStep (⟨[], none, none⟩ : StreamState Nat)
        (RecvResult.datagram [1])).rawSlot = none ∧
    (listenerStep (⟨[], none, none⟩ : StreamState Nat)
        (RecvResult.datagram [1])).rawSlot ≠ some [] := by
  decide

/-- C2 amended: a datagram holding only the flag byte 1 is 1 byte long, so
the listener discards it as malformed: the whole stream state is
unchanged, and in particular no zero-length frame is ever published on
this path, so the decode stage never sees one. -/
theorem flag_only_datagram_dropped {α : Type} (st : StreamState α) :
    listenerStep st (RecvResult.datagram [1]) = st := by
  simp [listenerStep]

/-- C9: every frame the listener publishes to the raw-frame slot is
non-empty: each listener step either leaves the raw slot untouched or
stores a non-empty frame, because the publish path requires a datagram of
at least 2 bytes whose payload of at least 1 byte was just appended to the
buffer. -/
theorem published_frame_nonempty {α : Type} (st : StreamState α)
    (e : RecvResult) :
    (listenerStep st e).rawSlot = st.rawSlot ∨
    ∃ f, (listenerStep st e).rawSlot = some f ∧ f ≠ [] := by
  cases e with
  | timeout => exact Or.inl rfl
  | error => exact Or.inl rfl
  | datagram data =>
      cases data with
      | nil => exact Or.inl rfl
      | cons b rest =>
          cases rest with
          | nil => left; simp [listenerStep]
          | cons c cs =>
              by_cases hflag : b = 1
              · right
                subst hflag
                rw [listenerStep_flag1 st (c :: cs) (by simp)]
                exact ⟨st.buffer ++ c :: cs, rfl, by simp⟩
              · left
                have hnl : ¬ cs.length + 1 + 1 < 2 := by omega
                simp [listenerStep, hflag, hnl]

/-- C10: the decoded-frame slot only ever receives successfully decoded
images: each decode-worker step either leaves the decoded slot untouched
or stores the image that the decode capability returned as a success on
the frame taken from the raw slot; a failed decode (None) publishes
nothing. -/
theorem decoded_slot_only_successes {α : Type} (decode : List Nat → Option α)
    (st : StreamState α) :
    (decodeStep decode st).decodedSlot = st.decodedSlot ∨
    ∃ raw img, st.rawSlot = some raw ∧ decode raw = some img ∧
      (decodeStep decode st).decodedSlot = some img := by
  cases hraw : st.rawSlot with
  | none => left; simp [decodeStep, qGet, hraw]
  | some jpeg =>
      cases hdec : decode jpeg with
      | none => left; simp [decodeStep, qGet, hraw, hdec]
      | some img =>
          right
          exact ⟨jpeg, img, rfl, hdec, by
            simp [decodeStep, qGet, hraw, hdec, putLatest_fst]⟩

/-- C4: decode-failure isolation: if the raw slot holds a frame the decode
capability rejects, one worker step publishes nothing and consumes the
frame (so it is never retried); the worker keeps looping, and when the
listener then publishes a frame that decodes successfully, the next worker
step delivers exactly that decoded image. -/
theorem decode_failure_isolation {α : Type} (decode : List Nat → Option α)
    (bad good : List Nat) (img : α) (st : StreamState α)
    (hbad : decode bad = none) (hgood : decode good = some img)
    (hraw : st.rawSlot = some bad) (hdec : st.decodedSlot = none) :
    (decodeStep decode st).decodedSlot = none ∧
    (decodeStep decode st).rawSlot = none ∧
    (decodeStep decode
        { decodeStep decode st with
          rawSlot := (putLatest (decodeStep decode st).rawSlot good).1
        }).decodedSlot = some img := by
  have h1 : decodeStep decode st = { st with rawSlot := none } := by
    simp [decodeStep, qGet, hraw, hbad]
  refine ⟨?_, ?_, ?_⟩
  · rw [h1]; exact hdec
  · rw [h1]
  · rw [h1]
    simp [decodeStep, qGet, putLatest, qFull, qPutNowait, hgood, hdec,
      putLatest_fst]

/-- Witness for decode_failure_isolation: the decode capability that only
accepts [7] (yielding image 42) rejects the corrupted frame []; the valid
frame [7] published afterwards is delivered as 42. -/
theorem decode_failure_isolation_witness :
    (decodeStep (fun l => if l = [7] then some 42 else none)
        (⟨[], some [], none⟩ : StreamState Nat)).decodedSlot = none ∧
    (decodeStep (fun l => if l = [7] then some 42 else none)
        (⟨[], some [], none⟩ : StreamState Nat)).rawSlot = none ∧
    (decodeStep (fun l => if l = [7] then some 42 else none)
        { decodeStep (fun l => if l = [7] then some 42 else none)
            (⟨[], some [], none⟩ : StreamState Nat) with
          rawSlot := (putLatest (decodeStep
              (fun l => if l = [7] then some 42 else none)
              (⟨[], some [], none⟩ : StreamState Nat)).rawSlot [7]).1
        }).decodedSlot = some 42 :=
  decode_failure_isolation (fun l => if l = [7] then some 42 else none)
    [] [7] 42 ⟨[], some [], none⟩ (by decide) (by decide) rfl rfl

/-- Receive bounded wait of the listener in milliseconds:
sock.settimeout(1.0) at line 44. -/
def RECV_TIMEOUT_MS : Nat := 1000

/-- Bounded wait of the decode worker's queue get in milliseconds:
raw_queues[port].get(timeout=0.5) at line 86. -/
def QUEUE_GET_TIMEOUT_MS : Nat := 500

/-- Sleep main performs after clearing the running flag, in milliseconds:
time.sleep(0.5) at line 161. -/
def SHUTDOWN_SLEEP_MS : Nat := 500

/-- The udp_listener while-loop (lines 50-75) driven by a trace of
iterations: each iteration first reads the running flag; a false reading
exits the loop at once, a true reading performs one bounded-wait receive
(one blocking cycle) and processes its result.  Returns the final state
and the number of blocking receive cycles begun. -/
def listenerLoop {α : Type} : StreamState α → List (Bool × RecvResult) →
    StreamState α × Nat
  | st, [] => (st, 0)
  | st, (false, _) :: _ => (st, 0)
  | st, (true, e) :: rest =>
      let r := listenerLoop (listenerStep st e) rest
      (r.1, r.2 + 1)

/-- Outcome of a full udp_listener call: final state, number of blocking
receive cycles begun, and whether the socket was closed. -/
structure ListenerExit (α : Type) : Type where
  state : StreamState α
  waits : Nat
  socketClosed : Bool

/-- A full udp_listener call: the loop, then the finally block at lines
77-78, which closes the socket on every exit path. -/
def udpListenerRun {α : Type} (st : StreamState α)
    (trace : List (Bool × RecvResult)) : ListenerExit α :=
  let r := listenerLoop st trace
  ⟨r.1, r.2, true⟩

/-- The decode_worker while-loop (lines 84-101) driven by flag readings:
a false reading exits at once, a true reading performs one bounded-wait
queue get and one body iteration. -/
def decodeLoop {α : Type} (decode : List Nat → Option α) :
    StreamState α → List Bool → StreamState α × Nat
  | st, [] => (st, 0)
  | st, false :: _ => (st, 0)
  | st, true :: rest =>
      let r := decodeLoop decode (decodeStep decode st) rest
      (r.1, r.2 + 1)

/-- One action of the shutdown path of main (lines 160-162). -/
inductive ShutdownAction : Type
  | setRunningFalse
  | sleep (ms : Nat)
  | joinThread
  | destroyAllWindows
deriving DecidableEq

/-- Whether the action releases the render resources. -/
def ShutdownAction.isDestroy : ShutdownAction → Bool
  | ShutdownAction.destroyAllWindows => true
  | _ => false

/-- Whether the action joins a worker thread. -/
def ShutdownAction.isJoin : ShutdownAction → Bool
  | ShutdownAction.joinThread => true
  | _ => false

/-- Total milliseconds slept by a sequence of shutdown actions. -/
def sleepTotalMs : List ShutdownAction → Nat
  | [] => 0
  | ShutdownAction.sleep ms :: rest => ms + sleepTotalMs rest
  | _ :: rest => sleepTotalMs rest

/-- The shutdown sequence main performs after the display loop ends
(lines 160-162): running = False, then time.sleep(0.5), then
cv2.destroyAllWindows().  No join of the worker threads appears (they are
daemon threads). -/
def mainShutdownSequence : List ShutdownAction :=
  [ShutdownAction.setRunningFalse, ShutdownAction.sleep SHUTDOWN_SLEEP_MS,
    ShutdownAction.destroyAllWindows]

/-- Modelled from the spec: the display loop "waits for their orderly
termination before releasing any render resources" when, before the first
destroyAllWindows action, it either joins the worker threads or sleeps at
least the worst-case exit time of a unit (one bounded-wait cycle). -/
def specWaitsForTermination (seq : List ShutdownAction)
    (worstExitMs : Nat) : Bool :=
  let pre := seq.takeWhile (fun a => ! a.isDestroy)
  pre.any ShutdownAction.isJoin || decide (worstExitMs ≤ sleepTotalMs pre)

/-- The listener performs exactly one blocking receive per true reading of
the running flag and exits at the first false reading: no receive cycle
begins after shutdown is observed. -/
theorem listenerLoop_waits {α : Type} (pre : List RecvResult) :
    ∀ (st : StreamState α) (post : List (Bool × RecvResult)),
      (∀ q ∈ post, q.1 = false) →
      (listenerLoop st (pre.map (fun e => (true, e)) ++ post)).2 =
        pre.length := by
  induction pre with
  | nil =>
      intro st post hpost
      cases post with
      | nil => rfl
      | cons q qs =>
          obtain ⟨b, e⟩ := q
          have hb := hpost (b, e) (List.mem_cons_self _ _)
          simp only at hb
          subst hb
          rfl
  | cons e es ih =>
      intro st post hpost
      have h := ih (listenerStep st e) post hpost
      simp [listenerLoop, h]

/-- The decode worker performs exactly one blocking queue get per true
reading of the running flag and exits at the first false reading. -/
theorem decodeLoop_waits {α : Type} (decode : List Nat → Option α) (k : Nat) :
    ∀ (st : StreamState α) (post : List Bool), (∀ b ∈ post, b = false) →
      (decodeLoop decode st (List.replicate k true ++ post)).2 = k := by
  induction k with
  | zero =>
      intro st post hpost
      cases post with
      | nil => rfl
      | cons b bs =>
          have hb := hpost b (List.mem_cons_self _ _)
          subst hb
          rfl
  | succ n ih =>
      intro st post hpost
      have h := ih (decodeStep decode st) post hpost
      simp [List.replicate_succ, decodeLoop, h]

/-- C8 counterexample: main sleeps only 500 ms after clearing the running
flag, which is less than the listener's 1000 ms receive timeout, and it
joins no worker thread, so the display loop releases the render resources
(cv2.destroyAllWindows) without waiting for the orderly termination of
the listener and worker units. -/
theorem shutdown_no_wait_counterexample :
    SHUTDOWN_SLEEP_MS < RECV_TIMEOUT_MS ∧
    specWaitsForTermination mainShutdownSequence RECV_TIMEOUT_MS = false := by
  decide

/-- C8 amended: once the running flag reads false, neither loop begins
another blocking wait: the listener performs one bounded receive cycle per
true flag reading, exits at the first false reading and closes its socket
on every exit path, and likewise the decode worker exits at the first
false reading; but main does not wait for this termination: it sleeps
only 500 ms, less than the listener's 1000 ms bounded wait, and joins no
thread before destroying the windows. -/
theorem shutdown_bounded_exit {α : Type} (decode : List Nat → Option α)
    (st st2 : StreamState α) (pre : List RecvResult) (k : Nat)
    (post : List (Bool × RecvResult)) (postB : List Bool)
    (hpost : ∀ q ∈ post, q.1 = false) (hpostB : ∀ b ∈ postB, b = false) :
    (udpListenerRun st (pre.map (fun e => (true, e)) ++ post)).waits =
      pre.length ∧
    (udpListenerRun st (pre.map (fun e => (true, e)) ++ post)).socketClosed =
      true ∧
    (decodeLoop decode st2 (List.replicate k true ++ postB)).2 = k ∧
    SHUTDOWN_SLEEP_MS < RECV_TIMEOUT_MS ∧
    specWaitsForTermination mainShutdownSequence RECV_TIMEOUT_MS = false := by
  refine ⟨?_, rfl, decodeLoop_waits decode k st2 postB hpostB,
    by decide, by decide⟩
  have h := listenerLoop_waits (α := α) pre st post hpost
  simpa [udpListenerRun] using h

/-- Witness for shutdown_bounded_exit: one true flag reading with a
timeout receive, then a false reading, for both loops. -/
theorem shutdown_bounded_exit_witness :
    (udpListenerRun (⟨[], none, none⟩ : StreamState Nat)
      ([RecvResult.timeout].map (fun e => (true, e)) ++
        [(false, RecvResult.timeout)])).waits = [RecvResult.timeout].length ∧
    (udpListenerRun (⟨[], none, none⟩ : StreamState Nat)
      ([RecvResult.timeout].map (fun e => (true, e)) ++
        [(false, RecvResult.timeout)])).socketClosed = true ∧
    (decodeLoop (fun _ => (none : Option Nat)) ⟨[], none, none⟩
      (List.replicate 1 true ++ [false])).2 = 1 ∧
    SHUTDOWN_SLEEP_MS < RECV_TIMEOUT_MS ∧
    specWaitsForTermination mainShutdownSequence RECV_TIMEOUT_MS = false :=
  shutdown_bounded_exit (fun _ => (none : Option Nat)) ⟨[], none, none⟩
    ⟨[], none, none⟩ [RecvResult.timeout] 1 [(false, RecvResult.timeout)]
    [false] (by decide) (by decide)
